import Mathlib

/-!
# Verification of the magang-backend access & workflow control layer

A shallow embedding of the route handlers of `src/index.js` (the current
revision, with JWT authentication) and, where a claim concerns it, the
earlier revision in `src/unnamed/part_000`.  Database tables are lists of
records; SQL `WHERE`/`JOIN` clauses become boolean filters; the bcrypt
primitives (out of scope per the spec) are abstract function parameters.
Soft deletion (`deleted_at IS NULL`) is modelled by a boolean `deleted`
flag (`deleted = false` ↔ `deleted_at IS NULL`).
-/

namespace Magang

/-- A row of the `users` table.  Fields not read by any modelled route
(`foto_profil`, timestamps other than `last_login`) are omitted. -/
structure User where
  id : Nat
  nama_lengkap : String
  nim : Option String
  jurusan : Option String
  no_hp : Option String
  username : String
  /-- The stored credential: a bcrypt hash (or, in legacy rows handled by
  the early revision, a plaintext password). -/
  password : String
  role : String
  status_laporan : String
  company_id : Option Nat
  last_login : Option Nat
  deleted : Bool
deriving Repr, DecidableEq

/-- A row of the `companies` table. -/
structure Company where
  id : Nat
  nama_perusahaan : String
  deleted : Bool
deriving Repr, DecidableEq

/-- A row of the `placements` table. -/
structure Placement where
  id : Nat
  user_id : Nat
  supervisor_id : Nat
  company_id : Nat
  deleted : Bool
deriving Repr, DecidableEq

/-- A row of the `logbooks` table. -/
structure Logbook where
  id : Nat
  user_id : Nat
  tanggal : String
  kegiatan : String
  bukti_foto : Option String
  status : String
  deleted : Bool
deriving Repr, DecidableEq

/-- The database state: the four tables plus the AUTO_INCREMENT counters
used to assign `insertId`s. -/
structure DB where
  users : List User
  companies : List Company
  placements : List Placement
  logbooks : List Logbook
  nextUserId : Nat
  nextPlacementId : Nat
  nextLogbookId : Nat
deriving Repr, DecidableEq

/-- The identity decoded from a verified JWT (`req.user`): the payload
signed at login carries `{ id, role, nama }`; routes read `id` and `role`. -/
structure Caller where
  id : Nat
  role : String
deriving Repr, DecidableEq

/-- The JWT payload issued by `POST /api/login`. -/
structure Token where
  id : Nat
  role : String
  nama : String
deriving Repr, DecidableEq

/-- The error outcomes of the modelled routes, named as in the spec
error taxonomy (§7).  `MissingField` covers the "harus diisi" /
"Data tidak lengkap" 400s, `PasswordTooShort` the
"Password minimal 6 karakter" 400. -/
inductive ApiError where
  | MissingField
  | PasswordTooShort
  | DuplicateUsername
  | AlreadyPlaced
  | InvalidStatus
  | Forbidden
  | NotFound
  | InvalidCredential
deriving Repr, DecidableEq

/-- The `allow(...roles)` middleware (src/index.js:184–201): passes iff
the verified caller role is in the route role list. -/
def allow (roles : List String) (c : Caller) : Bool :=
  roles.contains c.role

/-- Route `POST /api/login` (src/index.js:206–273).  `compare` models
`bcrypt.compare(submitted, stored)`; `now` models `NOW()` for the
last-login stamp.  Empty strings model missing (falsy) body fields. -/
def login (compare : String → String → Bool) (now : Nat) (db : DB)
    (username password : String) : Except ApiError Token × DB :=
  if username = "" ∨ password = "" then
    (Except.error ApiError.MissingField, db)
  else
    match (db.users.filter (fun u => !u.deleted && u.username == username)).head? with
    | none => (Except.error ApiError.NotFound, db)
    | some user =>
        if compare password user.password then
          (Except.ok ⟨user.id, user.role, user.nama_lengkap⟩,
           { db with users := db.users.map (fun u =>
               if u.id == user.id then { u with last_login := some now } else u) })
        else
          (Except.error ApiError.InvalidCredential, db)

/-- Route `POST /login` of the earlier revision (src/unnamed/part_000:80–109):
no soft-delete filter on the lookup, and a plaintext fallback — the login
succeeds when bcrypt comparison fails but the submitted password equals
the stored value verbatim.  It issues no JWT; success returns the user id. -/
def loginEarly (compare : String → String → Bool) (db : DB)
    (username password : String) : Except ApiError Nat :=
  match (db.users.filter (fun u => u.username == username)).head? with
  | none => Except.error ApiError.NotFound
  | some user =>
      if !compare password user.password && user.password != password then
        Except.error ApiError.InvalidCredential
      else
        Except.ok user.id

/-- The body of `POST /api/register`.  The handler destructures only the
six listed fields; `role` and `status_laporan` model extra fields a client
may send, which the handler never reads. -/
structure RegisterRequest where
  nama_lengkap : String
  nim : String
  jurusan : String
  no_hp : String
  username : String
  password : String
  role : Option String := none
  status_laporan : Option String := none
deriving Repr, DecidableEq

/-- The row inserted by `POST /api/register` (src/index.js:335–340):
role and report status are the literals `'peserta'` and `'locked'`. -/
def registeredUser (hash : String → String) (db : DB) (req : RegisterRequest) : User :=
  { id := db.nextUserId
    nama_lengkap := req.nama_lengkap
    nim := some req.nim
    jurusan := some req.jurusan
    no_hp := some req.no_hp
    username := req.username
    password := hash req.password
    role := "peserta"
    status_laporan := "locked"
    company_id := none
    last_login := none
    deleted := false }

/-- Route `POST /api/register` (src/index.js:302–354).  `hash` models
`bcrypt.hash(·, 10)`.  The duplicate check `SELECT id FROM users WHERE
username = ?` ranges over all rows, soft-deleted ones included. -/
def register (hash : String → String) (db : DB) (req : RegisterRequest) :
    Except ApiError Nat × DB :=
  if req.nama_lengkap = "" ∨ req.nim = "" ∨ req.jurusan = "" ∨ req.no_hp = "" ∨
      req.username = "" ∨ req.password = "" then
    (Except.error ApiError.MissingField, db)
  else if req.password.length < 6 then
    (Except.error ApiError.PasswordTooShort, db)
  else if db.users.any (fun u => u.username == req.username) then
    (Except.error ApiError.DuplicateUsername, db)
  else
    (Except.ok db.nextUserId,
     { db with
         users := db.users ++ [registeredUser hash db req]
         nextUserId := db.nextUserId + 1 })

/-- Route `POST /api/placements` (src/index.js:667–715).  `id = 0` models a
missing/falsy body field (JS truthiness).  On success the handler inserts
the placement and stamps the participant row `status_laporan = 'active'`,
`company_id = ?`. -/
def createPlacement (caller : Caller) (db : DB)
    (user_id supervisor_id company_id : Nat) : Except ApiError Nat × DB :=
  if !allow ["admin"] caller then
    (Except.error ApiError.Forbidden, db)
  else if user_id = 0 ∨ supervisor_id = 0 ∨ company_id = 0 then
    (Except.error ApiError.MissingField, db)
  else if db.placements.any (fun p => p.user_id == user_id && !p.deleted) then
    (Except.error ApiError.AlreadyPlaced, db)
  else
    (Except.ok db.nextPlacementId,
     { db with
         placements := db.placements ++
           [⟨db.nextPlacementId, user_id, supervisor_id, company_id, false⟩]
         nextPlacementId := db.nextPlacementId + 1
         users := db.users.map (fun u =>
           if u.id == user_id then
             { u with status_laporan := "active", company_id := some company_id }
           else u) })

/-- Route `PUT /api/placements/:id` (src/index.js:717–743): rewrites the
placement row unconditionally (no `AlreadyPlaced` check, no soft-delete
filter) and stamps the new participant `company_id`. -/
def updatePlacement (caller : Caller) (db : DB) (pid : Nat)
    (user_id supervisor_id company_id : Nat) : Except ApiError Unit × DB :=
  if !allow ["admin"] caller then
    (Except.error ApiError.Forbidden, db)
  else
    (Except.ok (),
     { db with
         placements := db.placements.map (fun p =>
           if p.id == pid then
             { p with user_id := user_id, supervisor_id := supervisor_id,
                      company_id := company_id }
           else p)
         users := db.users.map (fun u =>
           if u.id == user_id then { u with company_id := some company_id } else u) })

/-- Route `DELETE /api/placements/:id` (src/index.js:745–783): looks up the
placement `user_id` (no soft-delete filter), resets that user to
`('locked', NULL)` when found, then soft-deletes the placement row. -/
def deletePlacement (caller : Caller) (db : DB) (pid : Nat) :
    Except ApiError Unit × DB :=
  if !allow ["admin"] caller then
    (Except.error ApiError.Forbidden, db)
  else
    (Except.ok (),
     { db with
         users :=
           match db.placements.find? (fun p => p.id == pid) with
           | some p => db.users.map (fun u =>
               if u.id == p.user_id then
                 { u with status_laporan := "locked", company_id := none }
               else u)
           | none => db.users
         placements := db.placements.map (fun p =>
           if p.id == pid then { p with deleted := true } else p) })

/-- Route `POST /api/logbook` (src/index.js:788–825): participant-only; `bukti`
models `req.file?.filename` from the multipart upload; the inserted row's
status is the literal `'menunggu'`. -/
def submitLogbook (caller : Caller) (db : DB) (kegiatan tanggal : String)
    (bukti : Option String) : Except ApiError Nat × DB :=
  if !allow ["peserta"] caller then
    (Except.error ApiError.Forbidden, db)
  else if kegiatan = "" ∨ tanggal = "" then
    (Except.error ApiError.MissingField, db)
  else
    (Except.ok db.nextLogbookId,
     { db with
         logbooks := db.logbooks ++
           [⟨db.nextLogbookId, caller.id, tanggal, kegiatan, bukti, "menunggu", false⟩]
         nextLogbookId := db.nextLogbookId + 1 })

/-- The `WHERE`/`JOIN` conditions of the `GET /api/logbook/supervisor`
query (src/index.js:863–878): the entry is non-deleted, its owner is a
non-deleted user joined to a non-deleted placement under the given
supervisor, whose company row is non-deleted.  The joins can only
duplicate rows, so membership in the SQL result is this predicate. -/
def visibleToSupervisor (db : DB) (sid : Nat) (l : Logbook) : Bool :=
  !l.deleted &&
    db.users.any (fun u => u.id == l.user_id && !u.deleted &&
      db.placements.any (fun p => p.user_id == u.id && !p.deleted &&
        p.supervisor_id == sid &&
        db.companies.any (fun c => c.id == p.company_id && !c.deleted)))

/-- Route `GET /api/logbook/supervisor` (src/index.js:856–902), as the set of
entries returned (ordering by date is irrelevant to the claims). -/
def supervisorLogbook (caller : Caller) (db : DB) :
    Except ApiError (List Logbook) × DB :=
  if !allow ["supervisor"] caller then
    (Except.error ApiError.Forbidden, db)
  else
    (Except.ok (db.logbooks.filter (visibleToSupervisor db caller.id)), db)

/-- Modelled from the spec: `resolveSupervisor(participantId)` (§4.3) —
the supervisor referenced by the participant non-deleted placement.
No such function exists in the code; the spec uses it to describe which
supervisor "owns" a participant entries. -/
def resolveSupervisor (db : DB) (uid : Nat) : Option Nat :=
  (db.placements.find? (fun p => p.user_id == uid && !p.deleted)).map
    Placement.supervisor_id

/-- Route `PUT /api/logbook-status/:id` (src/index.js:904–937): role gate
`allow('admin','supervisor')`, then the literal whitelist
`['disetujui','ditolak','menunggu']`, then an unconditional `UPDATE` of
the row with that id.  No placement/ownership check is made. -/
def updateLogbookStatus (caller : Caller) (db : DB) (lid : Nat)
    (status : String) : Except ApiError Unit × DB :=
  if !allow ["admin", "supervisor"] caller then
    (Except.error ApiError.Forbidden, db)
  else if !(["disetujui", "ditolak", "menunggu"].contains status) then
    (Except.error ApiError.InvalidStatus, db)
  else
    (Except.ok (),
     { db with logbooks := db.logbooks.map (fun l =>
         if l.id == lid then { l with status := status } else l) })

/-- Route `DELETE /api/logbook/:id` (src/index.js:939–977): role gate
`allow('admin','peserta')`; a participant caller must own the row
(`SELECT id FROM logbooks WHERE id = ? AND user_id = ?`, no soft-delete
filter), otherwise 403; then the row is soft-deleted. -/
def deleteLogbook (caller : Caller) (db : DB) (lid : Nat) :
    Except ApiError Unit × DB :=
  if !allow ["admin", "peserta"] caller then
    (Except.error ApiError.Forbidden, db)
  else if caller.role == "peserta" &&
      !db.logbooks.any (fun l => l.id == lid && l.user_id == caller.id) then
    (Except.error ApiError.Forbidden, db)
  else
    (Except.ok (),
     { db with logbooks := db.logbooks.map (fun l =>
         if l.id == lid then { l with deleted := true } else l) })

/-- The participants referenced by non-deleted placement rows. -/
def activeUserIds (ps : List Placement) : List Nat :=
  (ps.filter (fun p => !p.deleted)).map Placement.user_id

/-- The single-active-placement invariant (§4.3): no participant is
referenced by two non-deleted placements. -/
@[reducible] def placementInvariant (db : DB) : Prop :=
  (activeUserIds db.placements).Nodup

/-- The usernames of non-deleted user rows. -/
def activeUsernames (us : List User) : List String :=
  (us.filter (fun u => !u.deleted)).map User.username

/-- The username-uniqueness invariant (§3): usernames are pairwise
distinct among non-deleted users. -/
@[reducible] def usernameInvariant (db : DB) : Prop :=
  (activeUsernames db.users).Nodup

/-- The `(status_laporan, company_id)` pair of the user with the given id,
the fields the placement lifecycle reads and writes. -/
def userState (db : DB) (uid : Nat) : Option (String × Option Nat) :=
  (db.users.find? (fun u => u.id == uid)).map
    (fun u => (u.status_laporan, u.company_id))

/-- The claimed supervisor-visibility set, written from the spec words
("an entry is visible to a supervisor only if a non-deleted Placement
exists linking the entry owner to that supervisor"): it mentions neither
the owner row nor the company row soft-delete state. -/
def specVisibleToSupervisor (db : DB) (sid : Nat) (l : Logbook) : Bool :=
  !l.deleted &&
    db.placements.any (fun p => p.user_id == l.user_id && !p.deleted &&
      p.supervisor_id == sid)

instance {ε α : Type} [DecidableEq ε] [DecidableEq α] : DecidableEq (Except ε α) := fun a b =>
  match a, b with
  | Except.ok x, Except.ok y =>
      if h : x = y then Decidable.isTrue (by rw [h]) else Decidable.isFalse (by simp [h])
  | Except.error x, Except.error y =>
      if h : x = y then Decidable.isTrue (by rw [h]) else Decidable.isFalse (by simp [h])
  | Except.ok _, Except.error _ => Decidable.isFalse (by simp)
  | Except.error _, Except.ok _ => Decidable.isFalse (by simp)

/-!
## Concrete sample data

A small database used by the witnesses and counterexamples: participant
`amara` (id 10) is placed with supervisor `sari` (id 50) at company 7 and
owns one pending logbook entry (id 1).
-/

/-- Sample participant. -/
def amara : User :=
  { id := 10, nama_lengkap := "Amara", nim := some ("123"), jurusan := some ("TI"),
    no_hp := some ("08"), username := "amara", password := "hashA", role := "peserta",
    status_laporan := "active", company_id := some 7, last_login := none, deleted := false }

/-- Sample supervisor. -/
def sari : User :=
  { id := 50, nama_lengkap := "Sari", nim := none, jurusan := none,
    no_hp := none, username := "sari", password := "hashS", role := "supervisor",
    status_laporan := "locked", company_id := none, last_login := none, deleted := false }

/-- The logbook entry owned by `amara`. -/
def entry1 : Logbook :=
  ⟨1, 10, "2024-05-01", "lab session", none, "menunggu", false⟩

/-- The sample database. -/
def sampleDB : DB :=
  { users := [amara, sari],
    companies := [⟨7, "PT X", false⟩],
    placements := [⟨1, 10, 50, 7, false⟩],
    logbooks := [entry1],
    nextUserId := 100, nextPlacementId := 2, nextLogbookId := 2 }

/-!
## Claims
-/

/-- C5: every logbook entry created through `POST /logbook` has initial
status `menunggu` (pending), for every submitted description, date and
optional evidence photo: the route succeeds, appends exactly one row, and
every row of the resulting table is either a pre-existing row or has
status `menunggu`. -/
theorem C5_submit_starts_pending (caller : Caller) (db : DB)
    (kegiatan tanggal : String) (bukti : Option String)
    (hrole : caller.role = "peserta") (hk : kegiatan ≠ "") (ht : tanggal ≠ "") :
    (submitLogbook caller db kegiatan tanggal bukti).1 = Except.ok db.nextLogbookId ∧
    (submitLogbook caller db kegiatan tanggal bukti).2.logbooks.length =
      db.logbooks.length + 1 ∧
    ∀ l ∈ (submitLogbook caller db kegiatan tanggal bukti).2.logbooks,
      l ∈ db.logbooks ∨ l.status = "menunggu" := by
  have hall : allow ["peserta"] caller = true := by
    simp [allow, hrole, List.contains]
  refine ⟨?_, ?_, ?_⟩
  · simp [submitLogbook, hall, hk, ht]
  · simp [submitLogbook, hall, hk, ht]
  · intro l hl
    simp only [submitLogbook, hall, Bool.not_true, hk, ht, or_self,
      Bool.false_eq_true, if_false, reduceIte, List.mem_append,
      List.mem_singleton] at hl
    rcases hl with hl | hl
    · exact Or.inl hl
    · right
      rw [hl]

/-- C5 witness: a concrete submission with an evidence photo attached is
created with status `menunggu`. -/
theorem C5_witness :
    (submitLogbook ⟨10, "peserta"⟩ sampleDB "ujian" "2024-05-02" (some ("f.png"))).1 =
      Except.ok sampleDB.nextLogbookId ∧
    (submitLogbook ⟨10, "peserta"⟩ sampleDB "ujian" "2024-05-02"
      (some ("f.png"))).2.logbooks.length = sampleDB.logbooks.length + 1 ∧
    ∀ l ∈ (submitLogbook ⟨10, "peserta"⟩ sampleDB "ujian" "2024-05-02"
      (some ("f.png"))).2.logbooks,
      l ∈ sampleDB.logbooks ∨ l.status = "menunggu" :=
  C5_submit_starts_pending ⟨10, "peserta"⟩ sampleDB "ujian" "2024-05-02"
    (some ("f.png")) rfl (by decide) (by decide)

/-- C6: for every caller that passes the role gate and every status value
outside {menunggu, disetujui, ditolak}, `PUT /logbook-status/:id` fails
with InvalidStatus and returns the database unchanged, so the stored
status of every entry is unchanged. -/
theorem C6_invalid_status_rejected (caller : Caller) (db : DB) (lid : Nat)
    (status : String)
    (hrole : caller.role = "admin" ∨ caller.role = "supervisor")
    (h1 : status ≠ "menunggu") (h2 : status ≠ "disetujui") (h3 : status ≠ "ditolak") :
    updateLogbookStatus caller db lid status =
      (Except.error ApiError.InvalidStatus, db) := by
  have hall : allow ["admin", "supervisor"] caller = true := by
    rcases hrole with h | h <;> simp [allow, h, List.contains]
  simp [updateLogbookStatus, hall, h1, h2, h3]

/-- C6 witness: the English value "approved" (the stored values are the
Indonesian literals) is rejected with InvalidStatus and the database is
returned unchanged. -/
theorem C6_witness :
    updateLogbookStatus ⟨50, "supervisor"⟩ sampleDB 1 "approved" =
      (Except.error ApiError.InvalidStatus, sampleDB) :=
  C6_invalid_status_rejected ⟨50, "supervisor"⟩ sampleDB 1 "approved"
    (Or.inr rfl) (by decide) (by decide) (by decide)

/-- C10: every user row created by `POST /register` has role `peserta` and
report status `locked`: whenever registration succeeds, every row of the
resulting users table is a pre-existing row or has role `peserta` and
status `locked` — for every request body, including any role or status
field a client may submit (the handler never reads them). -/
theorem C10_register_only_locked_participants (hash : String → String) (db : DB)
    (req : RegisterRequest) (rid : Nat) (db' : DB)
    (h : register hash db req = (Except.ok rid, db')) :
    ∀ u ∈ db'.users,
      u ∈ db.users ∨ (u.role = "peserta" ∧ u.status_laporan = "locked") := by
  unfold register at h
  split at h
  · simp at h
  · split at h
    · simp at h
    · split at h
      · simp at h
      · simp only [Prod.mk.injEq, Except.ok.injEq] at h
        obtain ⟨-, h2⟩ := h
        subst h2
        intro u hu
        simp only [List.mem_append, List.mem_singleton] at hu
        rcases hu with hu | hu
        · exact Or.inl hu
        · subst hu
          exact Or.inr ⟨rfl, rfl⟩

/-- A registration request that asks for role `admin` and status `active`
(fields the handler never reads). -/
def eveReq : RegisterRequest :=
  { nama_lengkap := "Eve", nim := "999", jurusan := "TI", no_hp := "08",
    username := "eve", password := "hunter22",
    role := some ("admin"), status_laporan := some ("active") }

/-- C10 witness: the row created for `eveReq` — which requested role
`admin` and status `active` — is not a pre-existing row, so by the
theorem it is a `peserta` / `locked` row. -/
theorem C10_witness :
    registeredUser (fun p => p ++ "#h") sampleDB eveReq ∈ sampleDB.users ∨
    ((registeredUser (fun p => p ++ "#h") sampleDB eveReq).role = "peserta" ∧
      (registeredUser (fun p => p ++ "#h") sampleDB eveReq).status_laporan =
        "locked") :=
  C10_register_only_locked_participants (fun p => p ++ "#h") sampleDB eveReq
    sampleDB.nextUserId
    (register (fun p => p ++ "#h") sampleDB eveReq).2 (by decide)
    (registeredUser (fun p => p ++ "#h") sampleDB eveReq) (by decide)

/-- C9: in `DELETE /logbook/:id`, with entry ids pairwise distinct, a
participant caller who is not the owner of entry `E` is denied with
Forbidden and the database is unchanged; an admin caller deletes any
entry; the owning participant deletes their own entry. -/
theorem C9_delete_rights (db : DB) (pc ac oc : Caller) (E : Logbook) (eid : Nat)
    (hmem : E ∈ db.logbooks) (heid : E.id = eid)
    (hids : (db.logbooks.map Logbook.id).Nodup)
    (hp : pc.role = "peserta") (hpne : pc.id ≠ E.user_id)
    (ha : ac.role = "admin")
    (ho : oc.role = "peserta") (hoid : oc.id = E.user_id) :
    deleteLogbook pc db eid = (Except.error ApiError.Forbidden, db) ∧
    ((deleteLogbook ac db eid).1 = Except.ok () ∧
      { E with deleted := true } ∈ (deleteLogbook ac db eid).2.logbooks) ∧
    ((deleteLogbook oc db eid).1 = Except.ok () ∧
      { E with deleted := true } ∈ (deleteLogbook oc db eid).2.logbooks) := by
  have hinj := List.inj_on_of_nodup_map hids
  have hmem' : { E with deleted := true } ∈ db.logbooks.map (fun l =>
      if l.id == eid then { l with deleted := true } else l) := by
    have := List.mem_map_of_mem
      (fun l => if l.id == eid then { l with deleted := true } else l) hmem
    simpa [heid] using this
  refine ⟨?_, ⟨?_, ?_⟩, ⟨?_, ?_⟩⟩
  · have hnone : db.logbooks.any (fun l => l.id == eid && l.user_id == pc.id) = false := by
      rw [List.any_eq_false]
      rintro l hl
      simp only [Bool.and_eq_true, beq_iff_eq, not_and]
      intro hid huid
      have hle : l = E := hinj hl hmem (by rw [hid, heid])
      exact hpne (by rw [← huid, hle])
    simp [deleteLogbook, allow, hp, List.contains, hnone]
  · simp [deleteLogbook, allow, ha, List.contains]
  · simp only [deleteLogbook, allow, ha, List.contains]
    simpa using hmem'
  · have hsome : db.logbooks.any (fun l => l.id == eid && l.user_id == oc.id) = true := by
      rw [List.any_eq_true]
      exact ⟨E, hmem, by simp [heid, hoid]⟩
    simp [deleteLogbook, allow, ho, List.contains, hsome]
  · have hsome : db.logbooks.any (fun l => l.id == eid && l.user_id == oc.id) = true := by
      rw [List.any_eq_true]
      exact ⟨E, hmem, by simp [heid, hoid]⟩
    simp only [deleteLogbook, allow, ho, List.contains, hsome]
    simpa [hsome] using hmem'

/-- C9 witness: on the sample database, participant 11 cannot delete entry
1 (owned by participant 10) and the state is unchanged; an admin and the
owner (participant 10) both soft-delete it. -/
theorem C9_witness :
    deleteLogbook ⟨11, "peserta"⟩ sampleDB 1 =
      (Except.error ApiError.Forbidden, sampleDB) ∧
    ((deleteLogbook ⟨1, "admin"⟩ sampleDB 1).1 = Except.ok () ∧
      { entry1 with deleted := true } ∈ (deleteLogbook ⟨1, "admin"⟩ sampleDB 1).2.logbooks) ∧
    ((deleteLogbook ⟨10, "peserta"⟩ sampleDB 1).1 = Except.ok () ∧
      { entry1 with deleted := true } ∈
        (deleteLogbook ⟨10, "peserta"⟩ sampleDB 1).2.logbooks) :=
  C9_delete_rights sampleDB ⟨11, "peserta"⟩ ⟨1, "admin"⟩ ⟨10, "peserta"⟩ entry1 1
    (by decide) rfl (by decide) rfl (by decide) rfl rfl rfl

/-- C1 counterexample: on the sample database the supervisor resolved for
participant 10 (the owner of entry 1) is 50, yet a caller with role
supervisor and id 99 — not the resolved supervisor — is not denied: the
update succeeds and the stored status of entry 1 changes from `menunggu`
to `disetujui`.  The route checks only the role, never the Placement
Graph. -/
theorem C1_counterexample :
    resolveSupervisor sampleDB 10 = some 50 ∧
    (updateLogbookStatus ⟨99, "supervisor"⟩ sampleDB 1 "disetujui").1 =
      Except.ok () ∧
    (updateLogbookStatus ⟨99, "supervisor"⟩ sampleDB 1 "disetujui").2.logbooks.map
      Logbook.status = ["disetujui"] := by
  decide

/-- C1 (amended): `PUT /logbook-status/:id` enforces only the role gate: a
caller whose role is neither admin nor supervisor is denied with Forbidden
and the database is unchanged, while every caller whose role is admin or
supervisor — any supervisor, with no check against the entry-owner
resolved supervisor — succeeds with a valid status value and the targeted
entry is updated to that status. -/
theorem C1_status_update_role_gate_only (db : DB) (caller : Caller) (lid : Nat)
    (status : String) :
    (caller.role ≠ "admin" → caller.role ≠ "supervisor" →
      updateLogbookStatus caller db lid status =
        (Except.error ApiError.Forbidden, db)) ∧
    ((caller.role = "admin" ∨ caller.role = "supervisor") →
      (status = "disetujui" ∨ status = "ditolak" ∨ status = "menunggu") →
      (updateLogbookStatus caller db lid status).1 = Except.ok () ∧
      ∀ E ∈ db.logbooks, E.id = lid →
        { E with status := status } ∈
          (updateLogbookStatus caller db lid status).2.logbooks) := by
  constructor
  · intro h1 h2
    have hall : allow ["admin", "supervisor"] caller = false := by
      simp [allow, List.contains, h1, h2]
    simp [updateLogbookStatus, hall]
  · intro hrole hstatus
    have hall : allow ["admin", "supervisor"] caller = true := by
      rcases hrole with h | h <;> simp [allow, h, List.contains]
    constructor
    · rcases hstatus with h | h | h <;> simp [updateLogbookStatus, hall, h]
    · intro E hE hEid
      have hmm := List.mem_map_of_mem
        (fun l => if l.id == lid then { l with status := status } else l) hE
      rcases hstatus with h | h | h <;>
        · simp only [updateLogbookStatus, hall, h] at hmm ⊢
          simpa [hEid] using hmm

/-- C1 amended-claim witness: a caller with role peserta is denied with
Forbidden and the state is unchanged; the admin succeeds and entry 1 is
stored with status `ditolak`. -/
theorem C1_role_gate_witness :
    updateLogbookStatus ⟨10, "peserta"⟩ sampleDB 1 "ditolak" =
      (Except.error ApiError.Forbidden, sampleDB) ∧
    ((updateLogbookStatus ⟨1, "admin"⟩ sampleDB 1 "ditolak").1 = Except.ok () ∧
      ∀ E ∈ sampleDB.logbooks, E.id = 1 →
        { E with status := "ditolak" } ∈
          (updateLogbookStatus ⟨1, "admin"⟩ sampleDB 1 "ditolak").2.logbooks) :=
  ⟨(C1_status_update_role_gate_only sampleDB ⟨10, "peserta"⟩ 1 "ditolak").1
      (by decide) (by decide),
   (C1_status_update_role_gate_only sampleDB ⟨1, "admin"⟩ 1 "ditolak").2
      (Or.inl rfl) (Or.inr (Or.inl rfl))⟩

/-- The sample database with company 7 soft-deleted: participant 10 still
has a non-deleted placement pointing to supervisor 50, and entry 1 is
non-deleted. -/
def sampleDBDeletedCompany : DB :=
  { sampleDB with companies := [⟨7, "PT X", true⟩] }

/-- C2 counterexample: entry 1 belongs to the claimed set — it is
non-deleted and its owner has a non-deleted placement pointing to
supervisor 50 — yet `GET /logbook/supervisor` for supervisor 50 returns
the empty list, because the query additionally joins away entries whose
placement references a soft-deleted company. -/
theorem C2_counterexample :
    specVisibleToSupervisor sampleDBDeletedCompany 50 entry1 = true ∧
    (supervisorLogbook ⟨50, "supervisor"⟩ sampleDBDeletedCompany).1 =
      Except.ok [] := by
  decide

/-- C2 (amended): for a supervisor caller, `GET /logbook/supervisor`
returns exactly the non-deleted entries whose owner is a non-deleted user
with a non-deleted placement pointing to the caller and whose placement
references a non-deleted company — every such entry is included and no
other entry is. -/
theorem C2_supervisor_listing (db : DB) (caller : Caller) (l : Logbook)
    (hrole : caller.role = "supervisor") :
    ∃ rows, (supervisorLogbook caller db).1 = Except.ok rows ∧
      (l ∈ rows ↔
        l ∈ db.logbooks ∧ l.deleted = false ∧
        ∃ u ∈ db.users, u.id = l.user_id ∧ u.deleted = false ∧
          ∃ p ∈ db.placements, p.user_id = u.id ∧ p.deleted = false ∧
            p.supervisor_id = caller.id ∧
            ∃ c ∈ db.companies, c.id = p.company_id ∧ c.deleted = false) := by
  have hall : allow ["supervisor"] caller = true := by
    simp [allow, hrole, List.contains]
  refine ⟨db.logbooks.filter (visibleToSupervisor db caller.id), ?_, ?_⟩
  · simp [supervisorLogbook, hall]
  · rw [List.mem_filter]
    simp only [visibleToSupervisor, Bool.and_eq_true, Bool.not_eq_true',
      List.any_eq_true, beq_iff_eq]
    tauto

/-- C2 amended-claim witness: on the sample database (company 7 not
deleted) entry 1 is in the listing for supervisor 50, and the
characterization holds. -/
theorem C2_listing_witness :
    ∃ rows, (supervisorLogbook ⟨50, "supervisor"⟩ sampleDB).1 = Except.ok rows ∧
      (entry1 ∈ rows ↔
        entry1 ∈ sampleDB.logbooks ∧ entry1.deleted = false ∧
        ∃ u ∈ sampleDB.users, u.id = entry1.user_id ∧ u.deleted = false ∧
          ∃ p ∈ sampleDB.placements, p.user_id = u.id ∧ p.deleted = false ∧
            p.supervisor_id = (50 : Nat) ∧
            ∃ c ∈ sampleDB.companies, c.id = p.company_id ∧ c.deleted = false) :=
  C2_supervisor_listing sampleDB ⟨50, "supervisor"⟩ entry1 rfl

theorem mem_activeUserIds {ps : List Placement} {uid : Nat} :
    uid ∈ activeUserIds ps ↔ ∃ p ∈ ps, p.deleted = false ∧ p.user_id = uid := by
  simp only [activeUserIds, List.mem_map, List.mem_filter, Bool.not_eq_true']
  tauto

theorem nodup_append_singleton {xs : List Nat} {a : Nat}
    (h : xs.Nodup) (ha : a ∉ xs) : (xs ++ [a]).Nodup := by
  simp [List.nodup_append, h, ha]

/-- C4: `POST /placements` maintains the single-active-placement
invariant: whenever the participant already has a non-deleted placement,
an admin creation request fails with AlreadyPlaced and the database —
placements table and participant record alike — is unchanged; and the
operation preserves the at-most-one-non-deleted-placement-per-participant
invariant in every case. -/
theorem C4_placement_creation_unique (caller : Caller) (db : DB)
    (uid sid cid : Nat) :
    (caller.role = "admin" → uid ≠ 0 → sid ≠ 0 → cid ≠ 0 →
      (∃ p ∈ db.placements, p.deleted = false ∧ p.user_id = uid) →
      createPlacement caller db uid sid cid =
        (Except.error ApiError.AlreadyPlaced, db)) ∧
    (placementInvariant db →
      placementInvariant (createPlacement caller db uid sid cid).2) := by
  constructor
  · intro hrole h1 h2 h3 hex
    have hall : allow ["admin"] caller = true := by
      simp [allow, hrole, List.contains]
    have hany : db.placements.any (fun p => p.user_id == uid && !p.deleted) = true := by
      rw [List.any_eq_true]
      obtain ⟨p, hp, hdel, hid⟩ := hex
      exact ⟨p, hp, by simp [hid, hdel]⟩
    simp [createPlacement, hall, h1, h2, h3, hany]
  · intro hinv
    unfold createPlacement
    split
    · exact hinv
    split
    · exact hinv
    split
    · exact hinv
    rename_i hany
    show placementInvariant _
    unfold placementInvariant at hinv ⊢
    have hnot : uid ∉ activeUserIds db.placements := by
      rw [mem_activeUserIds]
      rintro ⟨p, hp, hdel, hid⟩
      rw [Bool.not_eq_true, List.any_eq_false] at hany
      have := hany p hp
      simp [hid, hdel] at this
    have : activeUserIds (db.placements ++
        [⟨db.nextPlacementId, uid, sid, cid, false⟩]) =
        activeUserIds db.placements ++ [uid] := by
      simp [activeUserIds, List.filter_append]
    rw [this]
    exact nodup_append_singleton hinv hnot

/-- C4 witness: participant 10 already has a non-deleted placement in the
sample database, so an admin creating a second fails with AlreadyPlaced and
changes nothing; and creation preserves the invariant there. -/
theorem C4_witness :
    createPlacement ⟨1, "admin"⟩ sampleDB 10 50 7 =
      (Except.error ApiError.AlreadyPlaced, sampleDB) ∧
    placementInvariant (createPlacement ⟨1, "admin"⟩ sampleDB 10 50 7).2 :=
  ⟨(C4_placement_creation_unique ⟨1, "admin"⟩ sampleDB 10 50 7).1 rfl
      (by decide) (by decide) (by decide)
      ⟨⟨1, 10, 50, 7, false⟩, by decide, rfl, rfl⟩,
   (C4_placement_creation_unique ⟨1, "admin"⟩ sampleDB 10 50 7).2 (by decide)⟩

theorem mem_activeUsernames {us : List User} {s : String} :
    s ∈ activeUsernames us ↔ ∃ u ∈ us, u.deleted = false ∧ u.username = s := by
  simp only [activeUsernames, List.mem_map, List.mem_filter, Bool.not_eq_true']
  tauto

theorem nodup_append_singleton_str {xs : List String} {a : String}
    (h : xs.Nodup) (ha : a ∉ xs) : (xs ++ [a]).Nodup := by
  simp [List.nodup_append, h, ha]

/-- C7: `POST /register` keeps usernames unique: for a well-formed request
(all six fields present, password of at least 6 characters), registration
fails with DuplicateUsername and inserts no row whenever any stored user
row already carries the username, and succeeds with a fresh username,
appending exactly the new row and preserving the
usernames-unique-among-non-deleted-users invariant. -/
theorem C7_register_keeps_usernames_unique (hash : String → String) (db : DB)
    (req : RegisterRequest)
    (hna : req.nama_lengkap ≠ "") (hni : req.nim ≠ "") (hju : req.jurusan ≠ "")
    (hhp : req.no_hp ≠ "") (hus : req.username ≠ "")
    (hpw : 6 ≤ req.password.length) :
    ((∃ u ∈ db.users, u.username = req.username) →
      register hash db req = (Except.error ApiError.DuplicateUsername, db)) ∧
    ((∀ u ∈ db.users, u.username ≠ req.username) →
      (register hash db req).1 = Except.ok db.nextUserId ∧
      (register hash db req).2.users = db.users ++ [registeredUser hash db req] ∧
      (usernameInvariant db → usernameInvariant (register hash db req).2)) := by
  have hpw' : ¬ req.password.length < 6 := by omega
  have hpne : req.password ≠ "" := by
    intro h
    rw [h] at hpw
    simp at hpw
  constructor
  · intro hex
    have hany : db.users.any (fun u => u.username == req.username) = true := by
      rw [List.any_eq_true]
      obtain ⟨u, hu, huname⟩ := hex
      exact ⟨u, hu, by simp [huname]⟩
    simp [register, hna, hni, hju, hhp, hus, hpne, hpw', hany]
  · intro hfresh
    have hany : db.users.any (fun u => u.username == req.username) = false := by
      rw [List.any_eq_false]
      intro u hu
      simp [hfresh u hu]
    refine ⟨?_, ?_, ?_⟩
    · simp [register, hna, hni, hju, hhp, hus, hpne, hpw', hany]
    · simp [register, hna, hni, hju, hhp, hus, hpne, hpw', hany]
    · intro hinv
      have husers : (register hash db req).2.users =
          db.users ++ [registeredUser hash db req] := by
        simp [register, hna, hni, hju, hhp, hus, hpne, hpw', hany]
      unfold usernameInvariant at hinv ⊢
      rw [husers]
      have hnot : req.username ∉ activeUsernames db.users := by
        rw [mem_activeUsernames]
        rintro ⟨u, hu, -, huname⟩
        exact hfresh u hu huname
      have hact : activeUsernames (db.users ++ [registeredUser hash db req]) =
          activeUsernames db.users ++ [req.username] := by
        simp [activeUsernames, List.filter_append, registeredUser]
      rw [hact]
      exact nodup_append_singleton_str hinv hnot

/-- C7 witness: registering the taken username `amara` fails with
DuplicateUsername and changes nothing; registering the fresh username
`budi` succeeds, appends exactly the new row, and preserves the
uniqueness invariant. -/
theorem C7_witness :
    (register (fun p => p ++ "#h") sampleDB
        { nama_lengkap := "Eve", nim := "999", jurusan := "TI", no_hp := "08",
          username := "amara", password := "hunter22" } =
      (Except.error ApiError.DuplicateUsername, sampleDB)) ∧
    ((register (fun p => p ++ "#h") sampleDB
        { nama_lengkap := "Budi", nim := "777", jurusan := "TI", no_hp := "08",
          username := "budi", password := "hunter22" }).1 =
      Except.ok sampleDB.nextUserId ∧
      (register (fun p => p ++ "#h") sampleDB
        { nama_lengkap := "Budi", nim := "777", jurusan := "TI", no_hp := "08",
          username := "budi", password := "hunter22" }).2.users =
        sampleDB.users ++ [registeredUser (fun p => p ++ "#h") sampleDB
          { nama_lengkap := "Budi", nim := "777", jurusan := "TI", no_hp := "08",
            username := "budi", password := "hunter22" }] ∧
      (usernameInvariant sampleDB →
        usernameInvariant (register (fun p => p ++ "#h") sampleDB
          { nama_lengkap := "Budi", nim := "777", jurusan := "TI", no_hp := "08",
            username := "budi", password := "hunter22" }).2)) :=
  ⟨(C7_register_keeps_usernames_unique (fun p => p ++ "#h") sampleDB
      { nama_lengkap := "Eve", nim := "999", jurusan := "TI", no_hp := "08",
        username := "amara", password := "hunter22" }
      (by decide) (by decide) (by decide) (by decide) (by decide) (by decide)).1
      ⟨amara, by decide, rfl⟩,
   (C7_register_keeps_usernames_unique (fun p => p ++ "#h") sampleDB
      { nama_lengkap := "Budi", nim := "777", jurusan := "TI", no_hp := "08",
        username := "budi", password := "hunter22" }
      (by decide) (by decide) (by decide) (by decide) (by decide) (by decide)).2
      (by decide)⟩

theorem map_some_apply {α β : Type} (f : α → β) (a : α) :
    (some a).map f = some (f a) := rfl

theorem find?_users_map (us : List User) (uid : Nat) (g : User → User)
    (hg : ∀ u, (g u).id = u.id) :
    (us.map g).find? (fun u => u.id == uid) =
      (us.find? (fun u => u.id == uid)).map g := by
  rw [List.find?_map]
  have hfun : ((fun u => u.id == uid) ∘ g) = (fun u => u.id == uid) := by
    funext u
    simp [Function.comp, hg]
  rw [hfun]

/-- The sample participant with no placement, previous company reference 5
and status `locked`. -/
def amaraUnplaced : User :=
  { amara with status_laporan := "locked", company_id := some 5 }

/-- The sample database with participant 10 unplaced but carrying a stale
company reference 5. -/
def sampleDBUnplaced : DB :=
  { users := [amaraUnplaced, sari],
    companies := [⟨7, "PT X", false⟩],
    placements := [],
    logbooks := [],
    nextUserId := 100, nextPlacementId := 1, nextLogbookId := 1 }

/-- C3 counterexample: participant 10 starts at (locked, company 5);
creating a placement with company 7 and then deleting it leaves the
participant at (locked, null), not at the original state — the
create-then-delete sequence does not round-trip for every participant. -/
theorem C3_counterexample :
    userState sampleDBUnplaced 10 = some ("locked", some 5) ∧
    userState (deletePlacement ⟨1, "admin"⟩
        (createPlacement ⟨1, "admin"⟩ sampleDBUnplaced 10 50 7).2 1).2 10 =
      some ("locked", none) ∧
    userState (deletePlacement ⟨1, "admin"⟩
        (createPlacement ⟨1, "admin"⟩ sampleDBUnplaced 10 50 7).2 1).2 10 ≠
      userState sampleDBUnplaced 10 := by
  decide

/-- C3 (amended): for an admin caller and a participant P with no
non-deleted placement, creating a placement with company C sets P to
(active, C), and deleting that placement then resets P to (locked, null)
— so the sequence round-trips the (status, company) fields exactly when
the original state was (locked, null). -/
theorem C3_placement_lifecycle (db : DB) (caller : Caller)
    (uid sid cid : Nat) (P : User)
    (hrole : caller.role = "admin") (h1 : uid ≠ 0) (h2 : sid ≠ 0) (h3 : cid ≠ 0)
    (hP : db.users.find? (fun u => u.id == uid) = some P)
    (hfree : ∀ p ∈ db.placements, p.user_id ≠ uid ∨ p.deleted = true)
    (hfresh : ∀ p ∈ db.placements, p.id ≠ db.nextPlacementId) :
    userState (createPlacement caller db uid sid cid).2 uid =
      some ("active", some cid) ∧
    userState (deletePlacement caller (createPlacement caller db uid sid cid).2
        db.nextPlacementId).2 uid = some ("locked", none) ∧
    (userState (deletePlacement caller (createPlacement caller db uid sid cid).2
        db.nextPlacementId).2 uid = userState db uid ↔
      (P.status_laporan, P.company_id) = ("locked", none)) := by
  have hall : allow ["admin"] caller = true := by
    simp [allow, hrole, List.contains]
  have hany : db.placements.any (fun p => p.user_id == uid && !p.deleted) = false := by
    rw [List.any_eq_false]
    intro p hp
    simp only [Bool.and_eq_true, beq_iff_eq, Bool.not_eq_true', not_and]
    intro hpu
    rcases hfree p hp with h | h
    · exact absurd hpu h
    · simp [h]
  have hPid0 := List.find?_some hP
  have hPid : (P.id == uid) = true := hPid0
  have husers : (createPlacement caller db uid sid cid).2.users =
      db.users.map (fun u => if u.id == uid then
        { u with status_laporan := "active", company_id := some cid } else u) := by
    simp [createPlacement, hall, h1, h2, h3, hany]
  have hplac : (createPlacement caller db uid sid cid).2.placements =
      db.placements ++ [⟨db.nextPlacementId, uid, sid, cid, false⟩] := by
    simp [createPlacement, hall, h1, h2, h3, hany]
  have hfind1 : (createPlacement caller db uid sid cid).2.users.find?
      (fun u => u.id == uid) =
      some { P with status_laporan := "active", company_id := some cid } := by
    rw [husers, find?_users_map _ _ _ (by
      intro u
      by_cases h : (u.id == uid) = true <;> simp [h])]
    rw [hP, map_some_apply]
    exact congrArg some (if_pos hPid)
  have hstate1 : userState (createPlacement caller db uid sid cid).2 uid =
      some ("active", some cid) := by
    simp [userState, hfind1]
  have hfindp : (createPlacement caller db uid sid cid).2.placements.find?
      (fun p => p.id == db.nextPlacementId) =
      some ⟨db.nextPlacementId, uid, sid, cid, false⟩ := by
    rw [hplac, List.find?_append]
    have hnone : db.placements.find? (fun p => p.id == db.nextPlacementId) = none := by
      rw [List.find?_eq_none]
      intro p hp
      simp [hfresh p hp]
    simp [hnone]
  have husers2 : (deletePlacement caller (createPlacement caller db uid sid cid).2
      db.nextPlacementId).2.users =
      (createPlacement caller db uid sid cid).2.users.map (fun u =>
        if u.id == uid then
          { u with status_laporan := "locked", company_id := none } else u) := by
    simp [deletePlacement, hall, hfindp]
  have hfind2 : (deletePlacement caller (createPlacement caller db uid sid cid).2
      db.nextPlacementId).2.users.find? (fun u => u.id == uid) =
      some { P with status_laporan := "locked", company_id := none } := by
    rw [husers2, find?_users_map _ _ _ (by
      intro u
      by_cases h : (u.id == uid) = true <;> simp [h])]
    rw [hfind1, map_some_apply]
    exact congrArg some (if_pos hPid)
  have hstate2 : userState (deletePlacement caller
      (createPlacement caller db uid sid cid).2 db.nextPlacementId).2 uid =
      some ("locked", none) := by
    simp [userState, hfind2]
  refine ⟨hstate1, hstate2, ?_⟩
  rw [hstate2]
  have hstate0 : userState db uid = some (P.status_laporan, P.company_id) := by
    simp [userState, hP]
  rw [hstate0]
  constructor
  · intro h
    exact (Option.some_injective _ h).symm
  · intro h
    rw [h]

/-- C3 amended-claim witness: the lifecycle on the concrete unplaced
participant 10 with company 7. -/
theorem C3_lifecycle_witness :
    userState (createPlacement ⟨1, "admin"⟩ sampleDBUnplaced 10 50 7).2 10 =
      some ("active", some 7) ∧
    userState (deletePlacement ⟨1, "admin"⟩
        (createPlacement ⟨1, "admin"⟩ sampleDBUnplaced 10 50 7).2
        sampleDBUnplaced.nextPlacementId).2 10 = some ("locked", none) ∧
    (userState (deletePlacement ⟨1, "admin"⟩
        (createPlacement ⟨1, "admin"⟩ sampleDBUnplaced 10 50 7).2
        sampleDBUnplaced.nextPlacementId).2 10 = userState sampleDBUnplaced 10 ↔
      (amaraUnplaced.status_laporan, amaraUnplaced.company_id) =
        ("locked", (none : Option Nat))) :=
  C3_placement_lifecycle sampleDBUnplaced ⟨1, "admin"⟩ 10 50 7 amaraUnplaced
    rfl (by decide) (by decide) (by decide) (by decide) (by decide) (by decide)

/-- A user row whose stored credential is a plaintext password, as in
legacy rows predating hashing; bcrypt comparison against it always fails,
which the constant-false `compare` below models. -/
def andiPlaintext : User :=
  { id := 1, nama_lengkap := "Andi", nim := some ("111"), jurusan := some ("TI"),
    no_hp := some ("08"), username := "andi", password := "secret123",
    role := "peserta", status_laporan := "locked", company_id := none,
    last_login := none, deleted := false }

/-- The database holding only the plaintext-credential row. -/
def plaintextDB : DB :=
  { users := [andiPlaintext], companies := [], placements := [], logbooks := [],
    nextUserId := 2, nextPlacementId := 1, nextLogbookId := 1 }

/-- C8: the current-revision login rejects a password that fails hash
comparison with InvalidCredential, issues no token, and leaves the state
unchanged (so a repeated attempt fails identically) — but the
earlier-revision login (src/unnamed/part_000) accepts the very same
request through its plaintext fallback: the submitted password equals the
stored value verbatim, so it logs the user in even though the hash
comparison failed.  Verification there does compare against the stored
plaintext value, contradicting the claim. -/
theorem C8_plaintext_fallback :
    login (fun _ _ => false) 0 plaintextDB "andi" "secret123" =
      (Except.error ApiError.InvalidCredential, plaintextDB) ∧
    loginEarly (fun _ _ => false) plaintextDB "andi" "secret123" =
      Except.ok 1 := by
  decide

end Magang
